import Mathlib

/-!
Shallow embedding of the URL-shortener's click-accounting pipeline
(IgorGrieder/URL-Shortener): the links service, the PostgreSQL-backed
click-event processor, the outbox relay worker and the kafka balancer
the worker is configured with.  Definitions are translated from the Go
source and the SQL queries; theorems settle the specification claims.
-/

namespace UrlShortener

/-- Character class of Go's `unicode.IsSpace` (the Unicode `White_Space`
property), used by `strings.TrimSpace`. -/
def goIsSpace (c : Char) : Bool :=
  c = '\t' || c = '\n' || c.val = 11 || c.val = 12 || c = '\r' || c = ' ' ||
  c.val = 0x85 || c.val = 0xA0 || c.val = 0x1680 ||
  (0x2000 ≤ c.val && c.val ≤ 0x200A) ||
  c.val = 0x2028 || c.val = 0x2029 || c.val = 0x202F || c.val = 0x205F ||
  c.val = 0x3000

/-- Go's `strings.TrimSpace`: drop leading and trailing white space. -/
def trimSpace (s : String) : String :=
  ⟨(((s.toList.dropWhile goIsSpace).reverse.dropWhile goIsSpace).reverse)⟩

/-- Error values of `internal/processing/links/ports.go` plus the generic
storage error a repository may surface. -/
inductive LinkErr where
  | notFound
  | expired
  | invalidURL
  | slugTaken
  | invalidRange
  | storage
  deriving DecidableEq, Repr

/-- A row of the `links` table / `links.Link` struct.  Timestamps are
UTC instants in seconds; `expiresAt = none` models a NULL `expires_at`. -/
structure Link where
  slug : String
  url : String
  notes : String
  createdAt : Int
  expiresAt : Option Int
  apiKey : String
  clicks : Int
  deriving DecidableEq, Repr

/-- The repository consulted by the service: slug to link lookup result. -/
def LinkRepo := String → Except LinkErr Link

/-- `Service.GetLink` (part_002): trim the slug, answer `not-found` for a
blank slug without touching the repository, otherwise delegate to
`FindBySlug`.  The second component is the ghost log of repository
invocations, recording each slug the repository was consulted with. -/
def serviceGetLink (repo : LinkRepo) (slug : String) :
    Except LinkErr Link × List String :=
  let s := trimSpace slug
  if s = "" then (Except.error LinkErr.notFound, [])
  else (repo s, [s])

/-- `Service.Resolve` (part_002): `GetLink`, then the in-memory expiration
check `link.ExpiresAt != nil && now.After(link.ExpiresAt)`. -/
def serviceResolve (repo : LinkRepo) (slug : String) (now : Int) :
    Except LinkErr Link × List String :=
  match serviceGetLink repo slug with
  | (Except.error e, calls) => (Except.error e, calls)
  | (Except.ok link, calls) =>
    match link.expiresAt with
    | some exp =>
      if exp < now then (Except.error LinkErr.expired, calls)
      else (Except.ok link, calls)
    | none => (Except.ok link, calls)

/-- First row of the `links` table with the given slug
(`GetLinkBySlug`: `SELECT * FROM links WHERE slug = $1`; the slug is the
primary key, so at most one row matches). -/
def lookupSlug (links : List Link) (slug : String) : Option Link :=
  links.find? (fun l => l.slug = slug)

/-- The SQL activity filter `expires_at IS NULL OR expires_at >= $2`. -/
def linkActiveAt (l : Link) (t : Int) : Bool :=
  match l.expiresAt with
  | none => true
  | some e => t ≤ e

/-- `GetActiveLinkBySlugAndIncClick` (queries/links.sql):
`UPDATE links SET clicks = clicks + 1 WHERE slug = $1 AND (expires_at IS
NULL OR expires_at >= $2) RETURNING *`.  Returns the post-increment row
and the updated table, or `none` when no row matched. -/
def getActiveLinkBySlugAndIncClick (links : List Link) (slug : String) (t : Int) :
    Option (Link × List Link) :=
  match links.find? (fun l => l.slug = slug && linkActiveAt l t) with
  | none => none
  | some l =>
    some ({ l with clicks := l.clicks + 1 },
      links.map (fun r =>
        if r.slug = slug && linkActiveAt r t then { r with clicks := r.clicks + 1 } else r))

/-- `LinksRepository.FindActiveBySlugAndIncClick` (postgres repository):
run the compare-and-bump update; on zero rows distinguish `expired` from
`not-found` by a second `FindBySlug` lookup. -/
def findActiveBySlugAndIncClick (links : List Link) (slug : String) (t : Int) :
    Except LinkErr (Link × List Link) :=
  match getActiveLinkBySlugAndIncClick links slug t with
  | some r => Except.ok r
  | none =>
    match lookupSlug links slug with
    | some _ => Except.error LinkErr.expired
    | none => Except.error LinkErr.notFound

/-- State of the aggregate store: the processed-event registry
(`click_processed_events`), the `links` table and the `clicks_daily`
table, whose rows are (slug, day, count). -/
structure AggState where
  processed : List String
  links : List Link
  daily : List (String × Int × Int)
  deriving DecidableEq, Repr

/-- `InsertProcessedEventOnce`: `INSERT INTO click_processed_events
(event_id, processed_at) VALUES ($1, $2) ON CONFLICT (event_id) DO
NOTHING`, returning the number of rows inserted. -/
def insertProcessedEventOnce (processed : List String) (e : String) :
    Nat × List String :=
  if processed.contains e then (0, processed) else (1, processed ++ [e])

/-- `IncDailyClick`: `INSERT INTO clicks_daily (slug, day, count) VALUES
($1, $2, 1) ON CONFLICT (slug, day) DO UPDATE SET count =
clicks_daily.count + 1`. -/
def incDailyClick (daily : List (String × Int × Int)) (slug : String) (day : Int) :
    List (String × Int × Int) :=
  if daily.any (fun r => r.1 = slug && r.2.1 = day) then
    daily.map (fun r => if r.1 = slug && r.2.1 = day then (r.1, r.2.1, r.2.2 + 1) else r)
  else daily ++ [(slug, day, 1)]

/-- UTC calendar day of an epoch-seconds instant, as a day number
(`processorToDate`: Go Unix time has no leap seconds, so UTC calendar-day
boundaries are exactly the multiples of 86400). -/
def utcDay (t : Int) : Int := Int.fdiv t 86400

/-- `ClickEventProcessor.Process` (click_event_processor.go): one
transaction that inserts the dedup row (`ON CONFLICT DO NOTHING`; zero
rows inserted means already applied, so roll back and report
already-processed), then attempts the compare-and-bump on the link (no
row: commit the dedup row alone and succeed without counter effects),
then upserts the daily counter and commits.  Result mirrors the Go
return `(alreadyProcessed, countersApplied, err)`. -/
def processClick (st : AggState) (eventID slug : String) (occurredAt : Int) :
    Except String (Bool × Bool × AggState) :=
  let e := trimSpace eventID
  let s := trimSpace slug
  if e = "" then Except.error "eventID must not be empty"
  else if s = "" then Except.error "slug must not be empty"
  else
    match insertProcessedEventOnce st.processed e with
    | (0, _) => Except.ok (true, false, st)
    | (_, processedNew) =>
      match getActiveLinkBySlugAndIncClick st.links s occurredAt with
      | none => Except.ok (false, false, { st with processed := processedNew })
      | some (_, linksNew) =>
        Except.ok (false, true,
          { processed := processedNew
            links := linksNew
            daily := incDailyClick st.daily s (utcDay occurredAt) })

/-- `processMessage` of the click consumer acknowledges the broker offset
exactly when `Process` returned without error. -/
def consumerAck (r : Except String (Bool × Bool × AggState)) : Bool :=
  match r with
  | Except.ok _ => true
  | Except.error _ => false

/-- Outcome of one `linkRepo.Insert` call as observed by `CreateLink`:
success, the dedicated `ErrSlugTaken`, or any other (storage) error.
A failed insert leaves the table unchanged (the SQL insert is atomic). -/
inductive InsertOutcome where
  | inserted
  | slugTaken
  | failure
  deriving DecidableEq, Repr

/-- Retry loop of `Service.CreateLink` (part_002): up to `fuel` attempts
starting at attempt index `i`.  Each attempt draws a fresh slug from the
slugger (`gen`; a slugger error is returned at once), inserts, continues
only on `ErrSlugTaken`, returns any other insert error at once, and on
success returns the link built from that slug together with the store
extended by the inserted row.  Exhaustion surfaces `ErrSlugTaken` with
the store untouched. -/
def createLinkLoop (gen : Nat → Except LinkErr String) (ins : Nat → String → InsertOutcome)
    (mk : String → Link) (store : List Link) :
    Nat → Nat → Except LinkErr Link × List Link
  | 0, _ => (Except.error LinkErr.slugTaken, store)
  | fuel + 1, i =>
    match gen i with
    | Except.error e => (Except.error e, store)
    | Except.ok slug =>
      match ins i slug with
      | InsertOutcome.slugTaken => createLinkLoop gen ins mk store fuel (i + 1)
      | InsertOutcome.failure => (Except.error LinkErr.storage, store)
      | InsertOutcome.inserted => (Except.ok (mk slug), store ++ [mk slug])

/-- `Service.CreateLink` after URL validation: the retry loop with
`maxAttempts = 10`. -/
def createLink (gen : Nat → Except LinkErr String) (ins : Nat → String → InsertOutcome)
    (mk : String → Link) (store : List Link) : Except LinkErr Link × List Link :=
  createLinkLoop gen ins mk store 10 0

/-- Body of the `GetStats` gap-fill loop (part_002): Go's
`for day := dateOnly(from); !day.After(dateOnly(to)); day = day.AddDate(0,0,1)`
appending `(day, byDate[day])`, where the map read defaults to zero.
Days are UTC day numbers. -/
def fillLoop (byDate : Int → Int) (day upTo : Int) : List (Int × Int) :=
  if upTo < day then []
  else (day, byDate day) :: fillLoop byDate (day + 1) upTo
  termination_by (upTo + 1 - day).toNat
  decreasing_by simp_wf; omega

/-- Last stored count in `rows` for the given day, defaulting to zero:
the Go `byDate` map is built by insertion in row order (later rows
overwrite) and read with the zero-defaulting index operator. -/
def byDateLookup (rows : List (String × Int × Int)) (day : Int) : Int :=
  match (rows.filter (fun r => r.2.1 = day)).getLast? with
  | some r => r.2.2
  | none => 0

/-- `GetDailyStatsByRange` (queries): rows of `clicks_daily` with the
given slug and day in `[f, t]`, in store order. -/
def getDailyStatsByRange (daily : List (String × Int × Int)) (slug : String) (f t : Int) :
    List (String × Int × Int) :=
  daily.filter (fun r => r.1 = slug && f ≤ r.2.1 && r.2.1 ≤ t)

/-- `Service.GetStats` (part_002): `GetLink` first (its `not-found`
propagates), then the `to.Before(from)` range check, then read the daily
rows and zero-fill one entry per day of `[f, t]`. -/
def getStats (links : List Link) (daily : List (String × Int × Int))
    (slug : String) (f t : Int) : Except LinkErr (List (Int × Int)) :=
  match (serviceGetLink (fun s =>
      match lookupSlug links s with
      | some l => Except.ok l
      | none => Except.error LinkErr.notFound) slug).1 with
  | Except.error e => Except.error e
  | Except.ok _ =>
    if t < f then Except.error LinkErr.invalidRange
    else
      let counts := getDailyStatsByRange daily slug f t
      Except.ok (fillLoop (byDateLookup counts) f t)

/-- `Service.RecordClick` (part_002): a blank slug is a silent no-op;
otherwise the result is the stats repository's `IncDaily` result, here
supplied by the caller as `incDailyRes`. -/
def recordClick (slug : String) (incDailyRes : Except LinkErr Unit) :
    Except LinkErr Unit :=
  if trimSpace slug = "" then Except.ok ()
  else incDailyRes

/-- HTTP responses the redirect handler can write. -/
inductive HttpResponse where
  | redirect (status : Nat) (location : String)
  | notFoundResp
  | goneResp
  | serverError
  deriving DecidableEq, Repr

/-- Observable events of one `LinksHandler.Redirect` invocation: a click
record attempt with its success flag, or a response write. -/
inductive HEvent where
  | clickAttempt (ok : Bool)
  | wroteResponse (r : HttpResponse)
  deriving DecidableEq, Repr

/-- `LinksHandler.Redirect` (part_004) as its event trace.  An error from
`Resolve` maps to 404 / 410 / 500 with no click recorded.  On success,
with `asyncClick` the handler spawns a goroutine and writes the redirect
without waiting, so the click attempt follows the response write (the Go
trace is concurrent; the handler never orders it before the response);
without `asyncClick` the click is attempted first but its error is
discarded (`_ = h.svc.RecordClick(...)`), and the redirect is written
either way. -/
def linksRedirect (resolveRes : Except LinkErr Link) (clickOk : Bool)
    (asyncClick : Bool) (redirectStatus : Nat) : List HEvent :=
  match resolveRes with
  | Except.error LinkErr.notFound => [HEvent.wroteResponse HttpResponse.notFoundResp]
  | Except.error LinkErr.expired => [HEvent.wroteResponse HttpResponse.goneResp]
  | Except.error _ => [HEvent.wroteResponse HttpResponse.serverError]
  | Except.ok link =>
    if asyncClick then
      [HEvent.wroteResponse (HttpResponse.redirect redirectStatus link.url),
       HEvent.clickAttempt clickOk]
    else
      [HEvent.clickAttempt clickOk,
       HEvent.wroteResponse (HttpResponse.redirect redirectStatus link.url)]

/-- Lifecycle states of a `click_outbox` row. -/
inductive OutboxStatus where
  | pending
  | processing
  | sent
  deriving DecidableEq, Repr

/-- A row of the `click_outbox` table (migration 00001_init.sql). -/
structure OutboxRow where
  id : String
  slug : String
  occurredAt : Int
  status : OutboxStatus
  attempts : Nat
  nextAttemptAt : Int
  lastError : String
  processingOwner : Option String
  processingExpiresAt : Option Int
  createdAt : Int
  updatedAt : Int
  sentAt : Option Int
  deriving DecidableEq, Repr

/-- `MarkOutboxRetry` (queries): `UPDATE click_outbox SET status =
'pending', last_error = $3, next_attempt_at = $4, updated_at = $5,
attempts = attempts + 1, processing_owner = NULL, processing_expires_at
= NULL WHERE id = $1 AND status = 'processing' AND processing_owner =
$2`.  `none` models zero rows matched (the repository then reports
`ErrOutboxEventNotOwned`). -/
def markOutboxRetry (row : OutboxRow) (workerID lastError : String)
    (nextAttemptAt now : Int) : Option OutboxRow :=
  if row.status = OutboxStatus.processing && row.processingOwner = some workerID then
    some { row with
            status := OutboxStatus.pending
            lastError := lastError
            nextAttemptAt := nextAttemptAt
            updatedAt := now
            attempts := row.attempts + 1
            processingOwner := none
            processingExpiresAt := none }
  else none

/-- Wrap an integer into Go's two's-complement `int64` range. -/
def wrap64 (v : Int) : Int := (v + 2 ^ 63) % 2 ^ 64 - 2 ^ 63

/-- Loop of `backoffDelay` (cmd/outbox_worker/main.go): double the delay
`attempt` times in `int64` arithmetic, returning `max` as soon as the
doubled delay reaches it, with a final clamp to `max`. -/
def backoffLoop (mx : Int) (delay : Int) : Nat → Int
  | 0 => if mx < delay then mx else delay
  | n + 1 =>
    let d := wrap64 (delay * 2)
    if mx ≤ d then mx else backoffLoop mx d n

/-- `backoffDelay(base, max, attempt)` of the relay worker. -/
def backoffDelay (base mx : Int) (attempt : Nat) : Int :=
  backoffLoop mx base attempt

/-- `truncateErr`: the error message cut to its first 1000 characters. -/
def truncateErr (msg : String) : String :=
  if 1000 < msg.length then msg.take 1000 else msg

/-- Failure branch of `processBatch` for one claimed event: the event row
is transitioned back to pending via `MarkRetry` with the truncated error
message and `next_attempt_at = now + backoffDelay(base, max,
ev.Attempts+1)`, conditional on the worker still owning the row. -/
def onPublishFailure (row : OutboxRow) (workerID errMsg : String)
    (base mx now : Int) : Option OutboxRow :=
  markOutboxRetry row workerID (truncateErr errMsg)
    (now + backoffDelay base mx (row.attempts + 1)) now

/-- Scan of kafka-go's `LeastBytes.Balance`: starting from the byte
counter of partition slot 0, take the first later slot with strictly
fewer bytes. -/
def lbScan : List (Nat × Nat) → Nat → Nat → Nat → Nat
  | [], _, bestIdx, _ => bestIdx
  | c :: rest, i, bestIdx, bestBytes =>
    if c.2 < bestBytes then lbScan rest (i + 1) i c.2
    else lbScan rest (i + 1) bestIdx bestBytes

/-- kafka-go `LeastBytes.Balance`: route the message to the partition
whose counter has accumulated the fewest bytes (first slot on ties),
then add the message's byte size to that counter.  The message key plays
no part in the choice.  Counters are (partition, bytes) pairs; `none`
models an empty partition list. -/
def leastBytesBalance (counters : List (Nat × Nat)) (msgBytes : Nat) :
    Option (Nat × List (Nat × Nat)) :=
  match counters with
  | [] => none
  | c0 :: rest =>
    let idx := lbScan rest 1 0 c0.2
    match counters.get? idx with
    | none => none
    | some c => some (c.1, counters.set idx (c.1, c.2 + msgBytes))

/-- The kafka message built by `processBatch` for a claimed outbox event
carries the event's slug as its key (`Key: []byte(ev.Slug)`); its byte
size, as counted by `LeastBytes`, is `len(key) + len(value)`. -/
def clickMessageBytes (slug : String) (valueLen : Nat) : Nat :=
  slug.length + valueLen

/-- Helper: trimming a string whose characters are all white space yields
the empty string. -/
lemma trimSpace_of_all_space {s : String} (h : s.toList.all goIsSpace) :
    trimSpace s = "" := by
  have h1 : s.data.dropWhile goIsSpace = [] := by
    rw [List.dropWhile_eq_nil_iff]
    intro x hx
    exact List.all_eq_true.mp h x hx
  simp [trimSpace, String.toList, h1]

/-- C10: for the empty string and every whitespace-only slug, `GetLink`
and `Resolve` answer `not-found` with an empty repository-call log: the
link store is never consulted for a blank slug. -/
theorem blank_slug_never_hits_repo (repo : LinkRepo) (slug : String) (now : Int)
    (h : slug.toList.all goIsSpace) :
    serviceGetLink repo slug = (Except.error LinkErr.notFound, []) ∧
    serviceResolve repo slug now = (Except.error LinkErr.notFound, []) := by
  have ht := trimSpace_of_all_space h
  refine ⟨?_, ?_⟩
  · simp [serviceGetLink, ht]
  · simp [serviceResolve, serviceGetLink, ht]

/-- Witness for C10 at the whitespace-only slug `" \t "` with a
repository that would answer every lookup, at `now = 0`. -/
theorem blank_slug_never_hits_repo_witness :
    serviceGetLink (fun _ => Except.error LinkErr.storage) " \t " =
      (Except.error LinkErr.notFound, []) ∧
    serviceResolve (fun _ => Except.error LinkErr.storage) " \t " 0 =
      (Except.error LinkErr.notFound, []) :=
  blank_slug_never_hits_repo (fun _ => Except.error LinkErr.storage) " \t " 0 (by decide)

/-- C1 counterexample: with the handler in its synchronous click mode, a
resolved link whose click record FAILS still gets the redirect response,
not a 5xx — the trace records the failed click attempt followed by the
302 write and contains no server-error response.  (In the default
asynchronous mode the click is not even attempted before the response.)
This refutes the claim that a failed click append fails the request. -/
theorem redirect_click_failure_counterexample :
    linksRedirect
        (Except.ok ⟨"abc123", "https://example.com/a", "", 0, none, "", 0⟩)
        false false 302 =
      [HEvent.clickAttempt false,
       HEvent.wroteResponse (HttpResponse.redirect 302 "https://example.com/a")] ∧
    HEvent.wroteResponse HttpResponse.serverError ∉
      linksRedirect
        (Except.ok ⟨"abc123", "https://example.com/a", "", 0, none, "", 0⟩)
        false false 302 := by
  constructor
  · rfl
  · intro hmem
    simp [linksRedirect] at hmem

/-- C1 amended: the redirect handler records the click best-effort only.
For every resolved link the redirect response is written whether or not
the click record succeeds, a click-record failure never produces a
server error, and in the default asynchronous mode the click attempt is
not ordered before the response write. -/
theorem redirect_click_is_best_effort (link : Link) (clickOk asyncClick : Bool)
    (status : Nat) :
    HEvent.wroteResponse (HttpResponse.redirect status link.url) ∈
        linksRedirect (Except.ok link) clickOk asyncClick status ∧
    HEvent.wroteResponse HttpResponse.serverError ∉
        linksRedirect (Except.ok link) clickOk asyncClick status ∧
    (asyncClick = true →
      linksRedirect (Except.ok link) clickOk asyncClick status =
        [HEvent.wroteResponse (HttpResponse.redirect status link.url),
         HEvent.clickAttempt clickOk]) := by
  refine ⟨?_, ?_, ?_⟩
  · cases asyncClick <;> simp [linksRedirect]
  · cases asyncClick <;> intro hmem <;> simp [linksRedirect] at hmem
  · intro ha
    simp [linksRedirect, ha]

/-- Witness for the amended C1 at a concrete link in both click modes. -/
theorem redirect_click_is_best_effort_witness :
    HEvent.wroteResponse (HttpResponse.redirect 302 "https://example.com/a") ∈
        linksRedirect
          (Except.ok ⟨"abc123", "https://example.com/a", "", 0, none, "", 0⟩)
          false true 302 ∧
    linksRedirect
        (Except.ok ⟨"abc123", "https://example.com/a", "", 0, none, "", 0⟩)
        false true 302 =
      [HEvent.wroteResponse (HttpResponse.redirect 302 "https://example.com/a"),
       HEvent.clickAttempt false] :=
  ⟨(redirect_click_is_best_effort
      ⟨"abc123", "https://example.com/a", "", 0, none, "", 0⟩ false true 302).1,
   (redirect_click_is_best_effort
      ⟨"abc123", "https://example.com/a", "", 0, none, "", 0⟩ false true 302).2.2 rfl⟩

/-- C3: the relay worker keys each kafka message by the event's slug, but
the writer is configured with the `LeastBytes` balancer, which routes by
accumulated byte counts and ignores the key: publishing two messages
that both carry slug `abc123` (key length 6, value length 90) through a
fresh two-partition balancer sends the first to partition 0 and the
second to partition 1. -/
theorem least_bytes_scatters_same_slug :
    clickMessageBytes "abc123" 90 = 96 ∧
    leastBytesBalance [(0, 0), (1, 0)] (clickMessageBytes "abc123" 90) =
      some (0, [(0, 96), (1, 0)]) ∧
    leastBytesBalance [(0, 96), (1, 0)] (clickMessageBytes "abc123" 90) =
      some (1, [(0, 96), (1, 96)]) := by
  refine ⟨rfl, rfl, rfl⟩

/-- C9 counterexample: a stats query with `from > to` on an absent slug
is rejected `not-found`, not `invalid-range` — the slug-existence check
runs before the range check, contrary to the claimed step order. -/
theorem stats_invalid_range_counterexample :
    getStats [] [] "abc123" 5 3 = Except.error LinkErr.notFound ∧
    getStats [] [] "abc123" 5 3 ≠ Except.error LinkErr.invalidRange := by
  refine ⟨rfl, ?_⟩
  intro heq
  rw [show getStats [] [] "abc123" 5 3 = Except.error LinkErr.notFound from rfl] at heq
  exact absurd (Except.error.inj heq) (by decide)

/-- C9 amended: for every stats query whose slug exists, `from > to` is
rejected with `invalid-range`; the slug-existence check precedes the
range check, so an absent slug yields `not-found` even for an unordered
range. -/
theorem stats_rejects_unordered_range (links : List Link)
    (daily : List (String × Int × Int)) (slug : String) (l : Link) (f t : Int)
    (hns : trimSpace slug ≠ "")
    (hs : lookupSlug links (trimSpace slug) = some l)
    (hr : t < f) :
    getStats links daily slug f t = Except.error LinkErr.invalidRange := by
  simp [getStats, serviceGetLink, hns, hs, hr]

/-- Witness for the amended C9: slug `abc123` exists, `from = 5 > to = 3`. -/
theorem stats_rejects_unordered_range_witness :
    getStats [⟨"abc123", "https://example.com/a", "", 0, none, "", 0⟩] [] "abc123" 5 3 =
      Except.error LinkErr.invalidRange :=
  stats_rejects_unordered_range
    [⟨"abc123", "https://example.com/a", "", 0, none, "", 0⟩] [] "abc123"
    ⟨"abc123", "https://example.com/a", "", 0, none, "", 0⟩ 5 3
    (by decide) (by decide) (by decide)

/-- Helper: `Process` on a state whose registry already holds the event
id rolls back and reports already-processed, leaving the state as is. -/
lemma processClick_already (st : AggState) (eventID slug : String) (t : Int)
    (he : trimSpace eventID ≠ "") (hs : trimSpace slug ≠ "")
    (hold : st.processed.contains (trimSpace eventID) = true) :
    processClick st eventID slug t = Except.ok (true, false, st) := by
  simp only [processClick, insertProcessedEventOnce]
  rw [if_neg he, if_neg hs, if_pos hold]

/-- C2: processing a click event twice has the effect of processing it
once.  The first `Process` of a fresh event id inserts it into the
processed-event registry inside the transaction, and a second `Process`
with the same event id reports already-processed and leaves the
registry, the links table and the daily counters unchanged. -/
theorem processClick_exactly_once (st : AggState) (eventID slug : String) (t : Int)
    (he : trimSpace eventID ≠ "") (hs : trimSpace slug ≠ "")
    (hnew : st.processed.contains (trimSpace eventID) = false) :
    ∃ applied stNew,
      processClick st eventID slug t = Except.ok (false, applied, stNew) ∧
      stNew.processed = st.processed ++ [trimSpace eventID] ∧
      processClick stNew eventID slug t = Except.ok (true, false, stNew) := by
  have hold : (st.processed ++ [trimSpace eventID]).contains (trimSpace eventID) = true := by
    simp
  have hnotc : ¬ (st.processed.contains (trimSpace eventID) = true) := by
    rw [hnew]; simp
  rcases hga : getActiveLinkBySlugAndIncClick st.links (trimSpace slug) t with _ | ⟨l, linksNew⟩
  · refine ⟨false, { st with processed := st.processed ++ [trimSpace eventID] }, ?_, rfl, ?_⟩
    · simp only [processClick, insertProcessedEventOnce]
      rw [if_neg he, if_neg hs, if_neg hnotc, hga]
    · exact processClick_already _ _ _ _ he hs hold
  · refine ⟨true,
      { processed := st.processed ++ [trimSpace eventID]
        links := linksNew
        daily := incDailyClick st.daily (trimSpace slug) (utcDay t) }, ?_, rfl, ?_⟩
    · simp only [processClick, insertProcessedEventOnce]
      rw [if_neg he, if_neg hs, if_neg hnotc, hga]
    · exact processClick_already _ _ _ _ he hs hold

/-- Witness for C2: a fresh event `e1` for active link `abc123` on an
empty aggregate state, at `occurredAt = 100`. -/
theorem processClick_exactly_once_witness :
    ∃ applied stNew,
      processClick
          ⟨[], [⟨"abc123", "https://example.com/a", "", 0, none, "", 0⟩], []⟩
          "e1" "abc123" 100 = Except.ok (false, applied, stNew) ∧
      stNew.processed = [] ++ ["e1"] ∧
      processClick stNew "e1" "abc123" 100 = Except.ok (true, false, stNew) :=
  processClick_exactly_once
    ⟨[], [⟨"abc123", "https://example.com/a", "", 0, none, "", 0⟩], []⟩
    "e1" "abc123" 100 (by decide) (by decide) (by decide)

/-- C5: processing an event whose slug has no active row at
`occurred_at` (absent or merely expired) commits the dedup row alone —
links and daily counters untouched — and reports success, so the
consumer acknowledges; a redelivery then short-circuits on the dedup
row and changes nothing. -/
theorem processClick_retires_missing_link (st : AggState) (eventID slug : String) (t : Int)
    (he : trimSpace eventID ≠ "") (hs : trimSpace slug ≠ "")
    (hnew : st.processed.contains (trimSpace eventID) = false)
    (hgone : getActiveLinkBySlugAndIncClick st.links (trimSpace slug) t = none) :
    processClick st eventID slug t =
      Except.ok (false, false, { st with processed := st.processed ++ [trimSpace eventID] }) ∧
    consumerAck (processClick st eventID slug t) = true ∧
    processClick { st with processed := st.processed ++ [trimSpace eventID] } eventID slug t =
      Except.ok (true, false, { st with processed := st.processed ++ [trimSpace eventID] }) := by
  have hnotc : ¬ (st.processed.contains (trimSpace eventID) = true) := by
    rw [hnew]; simp
  have h1 : processClick st eventID slug t =
      Except.ok (false, false, { st with processed := st.processed ++ [trimSpace eventID] }) := by
    simp only [processClick, insertProcessedEventOnce]
    rw [if_neg he, if_neg hs, if_neg hnotc, hgone]
  refine ⟨h1, ?_, ?_⟩
  · rw [h1]; rfl
  · exact processClick_already _ _ _ _ he hs (by simp)

/-- Witness for C5: event `e2` for the expired link `old123`
(`expires_at = 50`) processed at `occurredAt = 100` on an otherwise
empty aggregate state. -/
theorem processClick_retires_missing_link_witness :
    processClick
        ⟨[], [⟨"old123", "https://example.com/b", "", 0, some 50, "", 7⟩], []⟩
        "e2" "old123" 100 =
      Except.ok (false, false,
        ⟨[] ++ ["e2"], [⟨"old123", "https://example.com/b", "", 0, some 50, "", 7⟩], []⟩) ∧
    consumerAck (processClick
        ⟨[], [⟨"old123", "https://example.com/b", "", 0, some 50, "", 7⟩], []⟩
        "e2" "old123" 100) = true ∧
    processClick
        ⟨[] ++ ["e2"], [⟨"old123", "https://example.com/b", "", 0, some 50, "", 7⟩], []⟩
        "e2" "old123" 100 =
      Except.ok (true, false,
        ⟨[] ++ ["e2"], [⟨"old123", "https://example.com/b", "", 0, some 50, "", 7⟩], []⟩) :=
  processClick_retires_missing_link
    ⟨[], [⟨"old123", "https://example.com/b", "", 0, some 50, "", 7⟩], []⟩
    "e2" "old123" 100 (by decide) (by decide) (by decide) (by decide)

/-- Helper: a search for slug plus any extra condition fails on a table
holding no row with that slug. -/
lemma find_none_of_no_slug (links : List Link) (slug : String) (t : Int)
    (h : ∀ r ∈ links, r.slug ≠ slug) :
    links.find? (fun r => r.slug = slug && linkActiveAt r t) = none := by
  rw [List.find?_eq_none]
  intro x hx
  simp [h x hx]

/-- Helper: a table whose slug has no row at all also fails the combined
search. -/
lemma find_combined_none (links : List Link) (slug : String) (t : Int)
    (h : lookupSlug links slug = none) :
    links.find? (fun r => r.slug = slug && linkActiveAt r t) = none := by
  rw [lookupSlug, List.find?_eq_none] at h
  rw [List.find?_eq_none]
  intro x hx
  have hxs := h x hx
  simp at hxs
  simp [hxs]

/-- Helper: in a table with unique slugs, searching for the slug plus the
activity condition returns the slug's unique row exactly when that row
is active. -/
lemma find_combined_of_nodup (links : List Link) (slug : String) (t : Int)
    (hu : (links.map Link.slug).Nodup) :
    ∀ l, lookupSlug links slug = some l →
      links.find? (fun r => r.slug = slug && linkActiveAt r t) =
        (if linkActiveAt l t then some l else none) := by
  induction links with
  | nil => intro l hl; simp [lookupSlug] at hl
  | cons a as ih =>
    intro l hl
    rw [List.map_cons, List.nodup_cons] at hu
    by_cases ha : a.slug = slug
    · have hla : l = a := by
        rw [lookupSlug, List.find?_cons_of_pos _ (by simp [ha])] at hl
        exact (Option.some.inj hl).symm
      subst hla
      by_cases hp : linkActiveAt l t
      · rw [List.find?_cons_of_pos _ (by simp [ha, hp]), if_pos hp]
      · rw [List.find?_cons_of_neg _ (by simp [ha, hp]), if_neg hp]
        apply find_none_of_no_slug
        intro r hr hrs
        exact hu.1 (by rw [ha, ← hrs]; exact List.mem_map_of_mem Link.slug hr)
    · rw [lookupSlug, List.find?_cons_of_neg _ (by simp [ha])] at hl
      rw [List.find?_cons_of_neg _ (by simp [ha])]
      exact ih hu.2 l hl

/-- C4: on a links table with unique slugs, the compare-and-bump lookup
returns the post-increment row when the slug's row is active at `t`
(expiration null or at least `t`); for an inactive row it answers
`expired`; for an absent slug it answers `not-found` — the latter two
distinguished by the repository's second lookup. -/
theorem findActiveAndInc_spec (links : List Link) (slug : String) (t : Int)
    (hu : (links.map Link.slug).Nodup) :
    (∀ l, lookupSlug links slug = some l →
      (linkActiveAt l t = true →
        findActiveBySlugAndIncClick links slug t =
          Except.ok ({ l with clicks := l.clicks + 1 },
            links.map (fun r => if r.slug = slug && linkActiveAt r t
              then { r with clicks := r.clicks + 1 } else r))) ∧
      (linkActiveAt l t = false →
        findActiveBySlugAndIncClick links slug t = Except.error LinkErr.expired)) ∧
    (lookupSlug links slug = none →
      findActiveBySlugAndIncClick links slug t = Except.error LinkErr.notFound) := by
  constructor
  · intro l hl
    have hf := find_combined_of_nodup links slug t hu l hl
    constructor
    · intro hact
      rw [hact, if_pos rfl] at hf
      simp only [findActiveBySlugAndIncClick, getActiveLinkBySlugAndIncClick]
      rw [hf]
    · intro hinact
      rw [hinact] at hf
      simp only [Bool.false_eq_true, if_false] at hf
      simp only [findActiveBySlugAndIncClick, getActiveLinkBySlugAndIncClick]
      rw [hf, hl]
  · intro hnone
    have hf := find_combined_none links slug t hnone
    simp only [findActiveBySlugAndIncClick, getActiveLinkBySlugAndIncClick]
    rw [hf, hnone]

/-- Witness for C4: at `t = 100`, an unexpired row is bumped and
returned post-increment, an expired row (`expires_at = 50`) answers
`expired`, and an absent slug answers `not-found`. -/
theorem findActiveAndInc_spec_witness :
    findActiveBySlugAndIncClick
        [⟨"abc123", "https://example.com/a", "", 0, none, "", 5⟩] "abc123" 100 =
      Except.ok (⟨"abc123", "https://example.com/a", "", 0, none, "", 6⟩,
        [⟨"abc123", "https://example.com/a", "", 0, none, "", 5⟩].map
          (fun r => if r.slug = "abc123" && linkActiveAt r 100
            then { r with clicks := r.clicks + 1 } else r)) ∧
    findActiveBySlugAndIncClick
        [⟨"old123", "https://example.com/b", "", 0, some 50, "", 5⟩] "old123" 100 =
      Except.error LinkErr.expired ∧
    findActiveBySlugAndIncClick
        [⟨"old123", "https://example.com/b", "", 0, some 50, "", 5⟩] "missing" 100 =
      Except.error LinkErr.notFound :=
  ⟨((findActiveAndInc_spec
        [⟨"abc123", "https://example.com/a", "", 0, none, "", 5⟩] "abc123" 100
        (by decide)).1
      ⟨"abc123", "https://example.com/a", "", 0, none, "", 5⟩ (by decide)).1 (by decide),
   ((findActiveAndInc_spec
        [⟨"old123", "https://example.com/b", "", 0, some 50, "", 5⟩] "old123" 100
        (by decide)).1
      ⟨"old123", "https://example.com/b", "", 0, some 50, "", 5⟩ (by decide)).2 (by decide),
   (findActiveAndInc_spec
        [⟨"old123", "https://example.com/b", "", 0, some 50, "", 5⟩] "missing" 100
        (by decide)).2 (by decide)⟩

/-- Helper: `wrap64` is the identity inside the `int64` range. -/
lemma wrap64_eq_of_bounds (v : Int) (h1 : -(2 ^ 63) ≤ v) (h2 : v < 2 ^ 63) :
    wrap64 v = v := by
  unfold wrap64
  have h3 : 0 ≤ v + 2 ^ 63 := by linarith
  have h4 : v + 2 ^ 63 < 2 ^ 64 := by
    have hpow : (2 : Int) ^ 64 = 2 ^ 63 + 2 ^ 63 := by norm_num
    linarith
  rw [Int.emod_eq_of_lt h3 h4]
  ring

/-- Helper: the worker's doubling loop computes `min(delay · 2^n, max)`
for positive delays bounded by a `max` small enough that the `int64`
doubling never overflows. -/
lemma backoffLoop_min (mx : Int) (hmx : mx < 2 ^ 62) :
    ∀ (n : Nat) (delay : Int), 0 < delay → delay ≤ mx →
      backoffLoop mx delay n = min (delay * 2 ^ n) mx := by
  intro n
  induction n with
  | zero =>
    intro delay hd hdm
    rw [show backoffLoop mx delay 0 = if mx < delay then mx else delay from rfl,
      if_neg (not_lt.mpr hdm), pow_zero, mul_one, min_eq_left hdm]
  | succ n ih =>
    intro delay hd hdm
    have hpow : (2 : Int) ^ 63 = 2 * 2 ^ 62 := by norm_num
    have hw : wrap64 (delay * 2) = delay * 2 := by
      apply wrap64_eq_of_bounds
      · have : (0 : Int) < 2 ^ 63 := by positivity
        linarith
      · linarith
    simp only [backoffLoop, hw]
    by_cases hcase : mx ≤ delay * 2
    · rw [if_pos hcase]
      have h2n : (1 : Int) ≤ 2 ^ n := by
        have := pow_pos (show (0 : Int) < 2 by norm_num) n
        omega
      have hge : mx ≤ delay * 2 ^ (n + 1) := by
        calc mx ≤ delay * 2 := hcase
          _ ≤ delay * 2 * 2 ^ n := le_mul_of_one_le_right (by positivity) h2n
          _ = delay * 2 ^ (n + 1) := by ring
      exact (min_eq_right hge).symm
    · rw [if_neg hcase]
      push_neg at hcase
      rw [ih (delay * 2) (by positivity) (le_of_lt hcase)]
      congr 1
      ring

/-- C7: on a publish failure the relay worker transitions the claimed row
`processing → pending` conditional on `processing_owner = worker_id`,
increments `attempts` by exactly one, records the truncated error
message, and sets `next_attempt_at = now + backoff(attempts)` with
`backoff(n) = min(retry_base · 2^n, retry_max)` for every `n ≥ 0`; a row
not owned in `processing` by this worker is left untouched (zero rows
matched). -/
theorem outbox_retry_backoff_spec (row : OutboxRow) (workerID errMsg : String)
    (base mx now : Int)
    (hst : row.status = OutboxStatus.processing)
    (hw : row.processingOwner = some workerID)
    (hb : 0 < base) (hbm : base ≤ mx) (hmx : mx < 2 ^ 62) :
    (∀ n : Nat, backoffDelay base mx n = min (base * 2 ^ n) mx) ∧
    onPublishFailure row workerID errMsg base mx now =
      some { row with
              status := OutboxStatus.pending
              lastError := truncateErr errMsg
              nextAttemptAt := now + min (base * 2 ^ (row.attempts + 1)) mx
              updatedAt := now
              attempts := row.attempts + 1
              processingOwner := none
              processingExpiresAt := none } ∧
    (∀ r2 : OutboxRow, r2.status ≠ OutboxStatus.processing ∨ r2.processingOwner ≠ some workerID →
      onPublishFailure r2 workerID errMsg base mx now = none) := by
  have hform : ∀ n : Nat, backoffDelay base mx n = min (base * 2 ^ n) mx :=
    fun n => backoffLoop_min mx hmx n base hb hbm
  refine ⟨hform, ?_, ?_⟩
  · rw [onPublishFailure, markOutboxRetry, if_pos (by simp [hst, hw]), hform]
  · intro r2 h2
    rw [onPublishFailure, markOutboxRetry, if_neg]
    rcases h2 with h2 | h2 <;> simp [h2]

/-- Witness for C7 at `retry_base = 10^9` ns (1s), `retry_max = 3·10^10`
ns (30s), a processing row owned by `worker-1` with 3 prior attempts. -/
theorem outbox_retry_backoff_spec_witness :
    backoffDelay 1000000000 30000000000 4 =
      min ((1000000000 : Int) * 2 ^ 4) 30000000000 ∧
    onPublishFailure
        ⟨"id1", "abc123", 100, OutboxStatus.processing, 3, 0, "", some "worker-1",
          some 500, 0, 0, none⟩ "worker-1" "kafka down" 1000000000 30000000000 700 =
      some ⟨"id1", "abc123", 100, OutboxStatus.pending, 4,
        700 + min ((1000000000 : Int) * 2 ^ 4) 30000000000,
        truncateErr "kafka down", none, none, 0, 700, none⟩ :=
  ⟨(outbox_retry_backoff_spec
      ⟨"id1", "abc123", 100, OutboxStatus.processing, 3, 0, "", some "worker-1",
        some 500, 0, 0, none⟩ "worker-1" "kafka down" 1000000000 30000000000 700
      rfl rfl (by norm_num) (by norm_num) (by norm_num)).1 4,
   (outbox_retry_backoff_spec
      ⟨"id1", "abc123", 100, OutboxStatus.processing, 3, 0, "", some "worker-1",
        some 500, 0, 0, none⟩ "worker-1" "kafka down" 1000000000 30000000000 700
      rfl rfl (by norm_num) (by norm_num) (by norm_num)).2.1⟩

/-- The daily counter stored for `(slug, d)`, zero when the store has no
such row (later duplicate rows shadow earlier ones, mirroring the map
construction in `GetStats`). -/
def storedDailyCount (daily : List (String × Int × Int)) (slug : String) (d : Int) : Int :=
  match (daily.filter (fun r => r.1 = slug && r.2.1 = d)).getLast? with
  | some r => r.2.2
  | none => 0

/-- Helper: the gap-fill loop enumerates the days `f, f+1, …, t`. -/
lemma fillLoop_eq_range (b : Int → Int) :
    ∀ (n : Nat) (f t : Int), (t - f).toNat = n → f ≤ t →
      fillLoop b f t =
        (List.range (n + 1)).map (fun i : Nat => (f + (i : Int), b (f + (i : Int)))) := by
  intro n
  induction n with
  | zero =>
    intro f t hn hft
    have hft2 : t = f := by omega
    subst hft2
    rw [fillLoop, if_neg (by omega), fillLoop, if_pos (by omega)]
    rw [show List.range 1 = [0] from rfl]
    simp
  | succ n ih =>
    intro f t hn hft
    rw [fillLoop, if_neg (not_lt.mpr hft), ih (f + 1) t (by omega) (by omega)]
    conv_rhs => rw [List.range_succ_eq_map, List.map_cons, List.map_map]
    refine congrArg₂ List.cons (by norm_num) ?_
    apply List.map_congr_left
    intro a ha
    simp only [Function.comp]
    refine congrArg₂ Prod.mk (by push_cast; ring) (congrArg b (by push_cast; ring))

/-- Helper: looking a day up in the range-restricted rows equals the
day's stored counter, for days inside the range. -/
lemma range_filter_lookup (daily : List (String × Int × Int)) (slug : String)
    (f t d : Int) (h1 : f ≤ d) (h2 : d ≤ t) :
    byDateLookup (getDailyStatsByRange daily slug f t) d =
      storedDailyCount daily slug d := by
  have heq : (daily.filter (fun r => r.1 = slug && f ≤ r.2.1 && r.2.1 ≤ t)).filter
        (fun r => r.2.1 = d) =
      daily.filter (fun r => r.1 = slug && r.2.1 = d) := by
    rw [List.filter_filter]
    apply List.filter_congr
    intro r hr
    by_cases ha : r.1 = slug <;> by_cases hb : r.2.1 = d <;>
      simp [ha, hb, h1, h2]
  rw [byDateLookup, storedDailyCount, getDailyStatsByRange, heq]

/-- C6: for an existing slug and days `f ≤ t`, `GetStats` returns one
entry per calendar day of `[f, t]` in ascending order — `(t-f)+1`
entries in all — where each day carries its stored counter and every
missing day carries zero. -/
theorem getStats_dense (links : List Link) (daily : List (String × Int × Int))
    (slug : String) (l : Link) (f t : Int)
    (hns : trimSpace slug ≠ "")
    (hs : lookupSlug links (trimSpace slug) = some l)
    (hft : f ≤ t) :
    getStats links daily slug f t =
      Except.ok ((List.range ((t - f).toNat + 1)).map
        (fun i : Nat => (f + (i : Int), storedDailyCount daily slug (f + (i : Int))))) ∧
    ((List.range ((t - f).toNat + 1)).map
        (fun i : Nat => (f + (i : Int), storedDailyCount daily slug (f + (i : Int))))).length
      = (t - f).toNat + 1 := by
  refine ⟨?_, by simp⟩
  have hget : (serviceGetLink (fun s =>
      match lookupSlug links s with
      | some l2 => Except.ok l2
      | none => Except.error LinkErr.notFound) slug).1 = Except.ok l := by
    simp [serviceGetLink, hns, hs]
  simp only [getStats, hget]
  rw [if_neg (not_lt.mpr hft)]
  rw [fillLoop_eq_range _ ((t - f).toNat) f t rfl hft]
  congr 1
  apply List.map_congr_left
  intro i hi
  rw [List.mem_range] at hi
  have h1 : f ≤ f + i := by omega
  have h2 : f + i ≤ t := by omega
  rw [range_filter_lookup daily slug f t (f + i) h1 h2]

/-- Witness for C6 at the spec's literal scenario: counters 5 on day 1
and 3 on day 3 for slug `abc123`, queried over days 1..3. -/
theorem getStats_dense_witness :
    getStats [⟨"abc123", "https://example.com/a", "", 0, none, "", 0⟩]
        [("abc123", 1, 5), ("abc123", 3, 3)] "abc123" 1 3 =
      Except.ok ((List.range (((3 : Int) - 1).toNat + 1)).map
        (fun i : Nat => ((1 : Int) + (i : Int),
          storedDailyCount [("abc123", 1, 5), ("abc123", 3, 3)] "abc123" (1 + (i : Int))))) ∧
    ((List.range (((3 : Int) - 1).toNat + 1)).map
        (fun i : Nat => ((1 : Int) + (i : Int),
          storedDailyCount [("abc123", 1, 5), ("abc123", 3, 3)] "abc123" (1 + (i : Int))))).length
      = ((3 : Int) - 1).toNat + 1 :=
  getStats_dense [⟨"abc123", "https://example.com/a", "", 0, none, "", 0⟩]
    [("abc123", 1, 5), ("abc123", 3, 3)] "abc123"
    ⟨"abc123", "https://example.com/a", "", 0, none, "", 0⟩ 1 3
    (by decide) (by decide) (by norm_num)

/-- Helper: an attempt whose generated slug collides consumes one unit of
fuel and moves on to the next attempt. -/
lemma createLinkLoop_taken_step (gen : Nat → Except LinkErr String)
    (ins : Nat → String → InsertOutcome) (mk : String → Link) (store : List Link)
    (fuel i : Nat) (s : String)
    (hg : gen i = Except.ok s) (hi : ins i s = InsertOutcome.slugTaken) :
    createLinkLoop gen ins mk store (fuel + 1) i =
      createLinkLoop gen ins mk store fuel (i + 1) := by
  simp only [createLinkLoop, hg, hi]

/-- Helper: a run of `d` colliding attempts starting at attempt `i`
advances the loop by `d` attempts. -/
lemma createLinkLoop_skip (gen : Nat → Except LinkErr String)
    (ins : Nat → String → InsertOutcome) (mk : String → Link) (store : List Link)
    (d : Nat) :
    ∀ (i fuel : Nat),
      (∀ j, j < d → ∃ s, gen (i + j) = Except.ok s ∧
        ins (i + j) s = InsertOutcome.slugTaken) →
      createLinkLoop gen ins mk store (fuel + d) i =
        createLinkLoop gen ins mk store fuel (i + d) := by
  induction d with
  | zero => intro i fuel _; rfl
  | succ d ih =>
    intro i fuel h
    obtain ⟨s, hg, hi⟩ := h 0 (by omega)
    rw [add_zero] at hg hi
    have hstep := createLinkLoop_taken_step gen ins mk store (fuel + d) i s hg hi
    rw [show fuel + (d + 1) = (fuel + d) + 1 from by ring, hstep]
    have hrest := ih (i + 1) fuel (fun j hj => by
      have hh := h (j + 1) (by omega)
      rwa [show i + (j + 1) = (i + 1) + j from by ring] at hh)
    rw [hrest, show (i + 1) + d = i + (d + 1) from by ring]

/-- C8: `CreateLink` retries insertion with a freshly generated slug on
`slug-taken` up to 10 times; if all 10 attempts collide it returns a
single `slug-taken` error with the store unchanged; an insert error
other than `slug-taken` at any attempt is returned at once with the
store unchanged; a successful attempt returns the built link record and
appends exactly that row. -/
theorem createLink_retry_spec (gen : Nat → Except LinkErr String)
    (ins : Nat → String → InsertOutcome) (mk : String → Link) (store : List Link)
    (slugs : Nat → String) :
    ((∀ i, i < 10 → gen i = Except.ok (slugs i) ∧
        ins i (slugs i) = InsertOutcome.slugTaken) →
      createLink gen ins mk store = (Except.error LinkErr.slugTaken, store)) ∧
    (∀ k, k < 10 →
      (∀ i, i < k → gen i = Except.ok (slugs i) ∧
        ins i (slugs i) = InsertOutcome.slugTaken) →
      gen k = Except.ok (slugs k) →
      (ins k (slugs k) = InsertOutcome.failure →
        createLink gen ins mk store = (Except.error LinkErr.storage, store)) ∧
      (ins k (slugs k) = InsertOutcome.inserted →
        createLink gen ins mk store =
          (Except.ok (mk (slugs k)), store ++ [mk (slugs k)]))) := by
  constructor
  · intro h
    have hskip := createLinkLoop_skip gen ins mk store 10 0 0 (fun j hj => by
      obtain ⟨hg, hi⟩ := h j hj
      exact ⟨slugs j, by rwa [zero_add], by rwa [zero_add]⟩)
    rw [createLink, show (10 : Nat) = 0 + 10 from rfl, hskip]
    rfl
  · intro k hk hpre hg
    have hskip := createLinkLoop_skip gen ins mk store k 0 (10 - k) (fun j hj => by
      obtain ⟨hgj, hij⟩ := hpre j hj
      exact ⟨slugs j, by rwa [zero_add], by rwa [zero_add]⟩)
    have hfuel : (10 : Nat) = (10 - k) + k := by omega
    have hsplit : 10 - k = (9 - k) + 1 := by omega
    constructor
    · intro hfail
      rw [createLink, hfuel, hskip, zero_add, hsplit]
      simp only [createLinkLoop, hg, hfail]
    · intro hins
      rw [createLink, hfuel, hskip, zero_add, hsplit]
      simp only [createLinkLoop, hg, hins]

/-- Witness for C8: ten colliding attempts surface one `slug-taken` with
the store unchanged, and a collision-free third attempt inserts the
generated slug. -/
theorem createLink_retry_spec_witness :
    createLink (fun _ => Except.ok "dup") (fun _ _ => InsertOutcome.slugTaken)
        (fun s => ⟨s, "https://example.com/a", "", 0, none, "", 0⟩) [] =
      (Except.error LinkErr.slugTaken, []) ∧
    createLink (fun _ => Except.ok "dup")
        (fun i _ => if i < 2 then InsertOutcome.slugTaken else InsertOutcome.inserted)
        (fun s => ⟨s, "https://example.com/a", "", 0, none, "", 0⟩) [] =
      (Except.ok ⟨"dup", "https://example.com/a", "", 0, none, "", 0⟩,
        [] ++ [⟨"dup", "https://example.com/a", "", 0, none, "", 0⟩]) :=
  ⟨(createLink_retry_spec (fun _ => Except.ok "dup") (fun _ _ => InsertOutcome.slugTaken)
      (fun s => ⟨s, "https://example.com/a", "", 0, none, "", 0⟩) [] (fun _ => "dup")).1
      (by intro i _; exact ⟨rfl, rfl⟩),
   (((createLink_retry_spec (fun _ => Except.ok "dup")
      (fun i _ => if i < 2 then InsertOutcome.slugTaken else InsertOutcome.inserted)
      (fun s => ⟨s, "https://example.com/a", "", 0, none, "", 0⟩) [] (fun _ => "dup")).2
      2 (by omega) (by intro i hi; exact ⟨rfl, if_pos hi⟩) rfl).2 (if_neg (by omega)))⟩

end UrlShortener
